import Mathlib

/-!
Verification development for the reddb document store.

The in-memory engine (src/lib.rs) keeps a `HashMap<Uuid, Mutex<Vec<u8>>>`
behind an `RwLock`.  We embed that state as an association list from ids
(`Nat`, standing for the 128-bit `Uuid`) to a byte payload (`List Nat`)
together with a poison flag per value mutex and one for the outer lock.
The random `Uuid::new_v4` generator is modelled as a supply of ids carried
in the state; `Uuid::new_v4()` pops the head of the supply.

Outcomes of an operation are `RunResult`: `ok`, a typed error (the
`RedDbErrorKind` taxonomy of src/error.rs as surfaced through src/lib.rs),
or `panicked`, which models a Rust `panic!` / `.unwrap()` on an error
value.  Operations that mutate return the result paired with the new state.

The serializer is a parameter `ser : T → Option (List Nat)` (encode) with
`deser : List Nat → Option T` (decode); `none` models an encode/decode
failure of the pluggable codec.  Persistence success is injected as a
Boolean `persistOk` parameter where `storage.persist` is called.
-/

namespace RedDb

/-- One map entry: the contents of a `Mutex<Vec<u8>>` slot, with the
mutex's poison flag. -/
structure MVal where
  bytes : List Nat
  poisoned : Bool
deriving DecidableEq

/-- The state of one `RedDb` instance: the `RwLock<HashMap<Uuid, Mutex<Vec<u8>>>>`
as an association list plus the outer lock's poison flag, and the stream of
ids that `Uuid::new_v4` will return next. -/
structure DbState where
  data : List (Nat × MVal)
  dataPoisoned : Bool
  supply : List Nat
deriving DecidableEq

/-- The `RedDbErrorKind` taxonomy of the error module as used by src/lib.rs. -/
inductive ErrKind where
  | NotFound (id : Nat)
  | Poisoned
  | PoisonedValue
  | Serialization
  | Deserialization
  | Datapersist
  | ContentLoad
deriving DecidableEq

/-- Outcome of running one operation: `Ok`, `Err(kind)`, or a Rust panic. -/
inductive RunResult (α : Type) where
  | ok (a : α)
  | err (e : ErrKind)
  | panicked
deriving DecidableEq

/-- `Document<T>` of src/document.rs as returned by the public API:
an id together with the typed value. -/
structure Document (T : Type) where
  id : Nat
  data : T
deriving DecidableEq

/-- `HashMap::contains_key`. -/
def hmContains {β : Type} (m : List (Nat × β)) (k : Nat) : Bool :=
  m.any (fun p => p.1 == k)

/-- `HashMap::get`. -/
def hmGet {β : Type} (m : List (Nat × β)) (k : Nat) : Option β :=
  (m.find? (fun p => p.1 == k)).map (fun p => p.2)

/-- `HashMap::insert`: replaces the value when the key is present,
otherwise adds a new entry. -/
def hmInsert {β : Type} (m : List (Nat × β)) (k : Nat) (v : β) : List (Nat × β) :=
  if hmContains m k then m.map (fun p => if p.1 == k then (k, v) else p)
  else m ++ [(k, v)]

/-- `HashMap::remove`. -/
def hmRemove {β : Type} (m : List (Nat × β)) (k : Nat) : List (Nat × β) :=
  m.filter (fun p => p.1 != k)

/-- The keys of the map. -/
def keys {β : Type} (m : List (Nat × β)) : List Nat :=
  m.map (fun p => p.1)

variable {T : Type}

/-- `RedDb::serialize`: serializer failure is reported as
`RedDbErrorKind::Serialization`. -/
def serializeR (ser : T → Option (List Nat)) (v : T) : RunResult (List Nat) :=
  match ser v with
  | some b => .ok b
  | none => .err .Serialization

/-- `RedDb::deserialize`: decoder failure is reported as
`RedDbErrorKind::Deserialization`. -/
def deserializeR (deser : List Nat → Option T) (b : List Nat) : RunResult T :=
  match deser b with
  | some v => .ok v
  | none => .err .Deserialization

/-- `RedDb::insert_data`: takes the write lock (`self.write()?`, which maps a
poisoned lock to `Poisoned`), draws a fresh id from `Uuid::new_v4()`,
serializes the value (`self.serialize(&value)?`) and inserts the new slot. -/
def insert_data (ser : T → Option (List Nat)) (st : DbState) (value : T) :
    RunResult (Document T) × DbState :=
  if st.dataPoisoned then (.err .Poisoned, st)
  else
    let id := st.supply.headD 0
    let st1 : DbState := { st with supply := st.supply.tail }
    match ser value with
    | none => (.err .Serialization, st1)
    | some b =>
        (.ok ⟨id, value⟩, { st1 with data := hmInsert st1.data id ⟨b, false⟩ })

/-- `RedDb::insert_one`: `self.insert_data(value).unwrap()` (an error from
`insert_data` panics), then `storage.persist(&[doc])` whose failure is
reported as `Datapersist`. -/
def insert_one (ser : T → Option (List Nat)) (persistOk : Bool) (st : DbState)
    (value : T) : RunResult (Document T) × DbState :=
  match insert_data ser st value with
  | (.ok doc, st1) =>
      if persistOk then (.ok doc, st1) else (.err .Datapersist, st1)
  | (.err _, st1) => (.panicked, st1)
  | (.panicked, st1) => (.panicked, st1)

/-- `RedDb::find_one`: read lock (`self.read()?`), lookup
(`ok_or(NotFound)`), value lock (`map_err(PoisonedValue)?`), then
`self.deserialize(..)?`. -/
def find_one (deser : List Nat → Option T)
    (st : DbState) (id : Nat) : RunResult (Document T) :=
  if st.dataPoisoned then .err .Poisoned
  else
    match hmGet st.data id with
    | none => .err (.NotFound id)
    | some mv =>
        if mv.poisoned then .err .PoisonedValue
        else
          match deser mv.bytes with
          | none => .err .Deserialization
          | some v => .ok ⟨id, v⟩

/-- `RedDb::update_one`: write lock, `contains_key` check (a missing id
returns `Ok(false)`), value lock, `*guard = self.serialize(&new_value)?`
(so a serializer failure leaves the slot untouched), then
`storage.persist(&[doc])`. -/
def update_one (ser : T → Option (List Nat)) (persistOk : Bool) (st : DbState)
    (id : Nat) (new_value : T) : RunResult Bool × DbState :=
  if st.dataPoisoned then (.err .Poisoned, st)
  else if hmContains st.data id then
    match hmGet st.data id with
    | none => (.err (.NotFound id), st)
    | some mv =>
        if mv.poisoned then (.err .PoisonedValue, st)
        else
          match ser new_value with
          | none => (.err .Serialization, st)
          | some b =>
              let st1 : DbState := { st with data := hmInsert st.data id ⟨b, false⟩ }
              if persistOk then (.ok true, st1) else (.err .Datapersist, st1)
  else (.ok false, st)

/-- `RedDb::delete_one`: `self.data.write().unwrap()` — a poisoned outer
lock PANICS here instead of going through the `self.write()` helper that
maps it to `Poisoned`.  A present id is removed (`Ok(true)`), a missing id
returns `Ok(false)`.  Nothing is written to storage. -/
def delete_one (st : DbState) (id : Nat) : RunResult Bool × DbState :=
  if st.dataPoisoned then (.panicked, st)
  else if hmContains st.data id then
    (.ok true, { st with data := hmRemove st.data id })
  else (.ok false, st)

/-- The iterated `self.insert_data(data).unwrap()` of `RedDb::insert`. -/
def insertLoop (ser : T → Option (List Nat)) (st : DbState) :
    List T → RunResult (List (Document T)) × DbState
  | [] => (.ok [], st)
  | v :: rest =>
      match insert_data ser st v with
      | (.ok d, st1) =>
          match insertLoop ser st1 rest with
          | (.ok ds, st2) => (.ok (d :: ds), st2)
          | (r, st2) => (r, st2)
      | (_, st1) => (.panicked, st1)

/-- `RedDb::insert` (insert many): maps `insert_data(..).unwrap()` over the
values, then one `storage.persist(&docs)`. -/
def insert (ser : T → Option (List Nat)) (persistOk : Bool) (st : DbState)
    (values : List T) : RunResult (List (Document T)) × DbState :=
  match insertLoop ser st values with
  | (.ok ds, st1) =>
      if persistOk then (.ok ds, st1) else (.err .Datapersist, st1)
  | (_, st1) => (.panicked, st1)

/-- `RedDb::find_ids`: read lock, encode the search value, lock every entry
(`.map_err(PoisonedValue).unwrap()` — a poisoned value mutex panics), keep
the ids whose payload equals the encoded search byte-for-byte. -/
def find_ids (ser : T → Option (List Nat)) (st : DbState) (search : T) :
    RunResult (List Nat) :=
  if st.dataPoisoned then .err .Poisoned
  else
    match ser search with
    | none => .err .Serialization
    | some q =>
        if st.data.any (fun p => p.2.poisoned) then .panicked
        else .ok ((st.data.filter (fun p => p.2.bytes == q)).map (fun p => p.1))

/-- The `self.deserialize(&*data).unwrap()` step of `RedDb::find` applied to
the matching entries: any decoder failure panics. -/
def collectDocs (deser : List Nat → Option T) :
    List (Nat × MVal) → Option (List (Document T))
  | [] => some []
  | p :: ps =>
      match deser p.2.bytes, collectDocs deser ps with
      | some v, some ds => some (⟨p.1, v⟩ :: ds)
      | _, _ => none

/-- `RedDb::find`: read lock, encode the search value, lock every entry
(poisoned value mutex panics), keep exactly the entries whose payload is
byte-for-byte equal to the encoded search, decode each
(`.unwrap()` — failure panics). -/
def find (ser : T → Option (List Nat)) (deser : List Nat → Option T)
    (st : DbState) (search : T) : RunResult (List (Document T)) :=
  if st.dataPoisoned then .err .Poisoned
  else
    match ser search with
    | none => .err .Serialization
    | some q =>
        if st.data.any (fun p => p.2.poisoned) then .panicked
        else
          match collectDocs deser (st.data.filter (fun p => p.2.bytes == q)) with
          | some ds => .ok ds
          | none => .panicked

/-- `RedDb::update`: write lock, encode the search value
(`self.serialize(search)?`), lock every entry (poisoned value mutex
panics), overwrite every matching slot in place with
`self.serialize(new_value).unwrap()` (the closure only runs when there is
a match, so with no match a failing encoder is never hit), then
`storage.persist(&docs)`; returns the number of matches. -/
def update (ser : T → Option (List Nat)) (persistOk : Bool) (st : DbState)
    (search : T) (new_value : T) : RunResult Nat × DbState :=
  if st.dataPoisoned then (.err .Poisoned, st)
  else
    match ser search with
    | none => (.err .Serialization, st)
    | some q =>
        if st.data.any (fun p => p.2.poisoned) then (.panicked, st)
        else
          let n := (st.data.filter (fun p => p.2.bytes == q)).length
          match ser new_value with
          | none =>
              if n == 0 then
                if persistOk then (.ok 0, st) else (.err .Datapersist, st)
              else (.panicked, st)
          | some b =>
              let st1 : DbState :=
                { st with data := st.data.map (fun p =>
                    if p.2.bytes == q then (p.1, (⟨b, false⟩ : MVal)) else p) }
              if persistOk then (.ok n, st1) else (.err .Datapersist, st1)

/-- The `self.delete_one(id).unwrap()` loop of `RedDb::delete`. -/
def deleteLoop (st : DbState) : List Nat → RunResult (List Bool) × DbState
  | [] => (.ok [], st)
  | id :: rest =>
      match delete_one st id with
      | (.ok b, st1) =>
          match deleteLoop st1 rest with
          | (.ok bs, st2) => (.ok (b :: bs), st2)
          | (r, st2) => (r, st2)
      | (_, st1) => (.panicked, st1)

/-- `RedDb::delete`: `find_ids(search)?`, then `delete_one(id).unwrap()` on
each id; the returned count is the length of the collected vector of
booleans (every found id, whatever `delete_one` answered). -/
def delete (ser : T → Option (List Nat)) (st : DbState) (search : T) :
    RunResult Nat × DbState :=
  match find_ids ser st search with
  | .err e => (.err e, st)
  | .panicked => (.panicked, st)
  | .ok ids =>
      match deleteLoop st ids with
      | (.ok bs, st1) => (.ok bs.length, st1)
      | (_, st1) => (.panicked, st1)

end RedDb

namespace Ron

/-- The test struct of the repository's test suite: a single field `foo`.
The string is kept as its byte sequence. -/
structure TestStruct where
  foo : List Nat
deriving DecidableEq

/-- RON string escaping: a double quote (34) or backslash (92) inside the
string is preceded by a backslash. -/
def ronEscape : List Nat → List Nat
  | [] => []
  | c :: cs =>
      if c == 34 || c == 92 then 92 :: c :: ronEscape cs
      else c :: ronEscape cs

/-- Modelled from the spec: the RON serializer (src/serializer/ron.rs is
declared but absent from the sources; only the `Serializer` trait and the
repository's own test vector are present).  Encoding of a `TestStruct`
with field `foo` is the byte sequence of `(foo:"..." )` minus the space,
followed by a newline — exactly the bytes
`[40,102,111,111,58,34, ...foo..., 34,41,10]` the repository's
`serialie_deserialize` test asserts for foo = "one". -/
def ronSerialize (v : TestStruct) : Option (List Nat) :=
  some ([40, 102, 111, 111, 58, 34] ++ ronEscape v.foo ++ [34, 41, 10])

/-- Consume an escaped RON string up to its closing unescaped quote;
returns the unescaped content and the remaining bytes. -/
def ronUnescape : List Nat → Option (List Nat × List Nat)
  | [] => none
  | c :: cs =>
      if c == 92 then
        match cs with
        | [] => none
        | d :: ds => (ronUnescape ds).map (fun p => (d :: p.1, p.2))
      else if c == 34 then some ([], cs)
      else (ronUnescape cs).map (fun p => (c :: p.1, p.2))

/-- Modelled from the spec: the RON deserializer, inverse direction of
`ronSerialize` on well-formed encodings, `none` on malformed bytes. -/
def ronDeserialize (bytes : List Nat) : Option TestStruct :=
  match bytes with
  | 40 :: 102 :: 111 :: 111 :: 58 :: 34 :: rest =>
      match ronUnescape rest with
      | some (s, [41, 10]) => some ⟨s⟩
      | _ => none
  | _ => none

end Ron

namespace DStoreModel

/-- The Saved / NotSaved dirty flag of src/status.rs (used by src/store.rs). -/
inductive Status where
  | Saved
  | NotSaved
deriving DecidableEq

/-- The `Document` stored by src/store.rs: a payload (the decoded line's
`data` field, kept opaque here) and its status. -/
structure DocV (V : Type) where
  data : V
  status : Status
deriving DecidableEq

/-- `Store::new` of src/store.rs: iterate over the log's lines in file
order; each line yields its id and payload (the JSON decoding and id
extraction performed by the external serde collaborator are abstracted:
a line is given as the decoded pair); build the map with
`HashMap::insert`, each document entering with status `Saved`.  Because
`insert` overwrites an existing key, a later line with the same id
replaces the earlier one. -/
def storeNew {V : Type} (lines : List (Nat × V)) : List (Nat × DocV V) :=
  lines.foldl (fun m l => RedDb.hmInsert m l.1 ⟨l.2, Status.Saved⟩) []

end DStoreModel

namespace Sys

open RedDb

/-- A RedDb engine together with its append-only log: the log is the list
of persisted records, one `(id, payload)` pair per line. -/
structure SysState where
  mem : DbState
  log : List (Nat × List Nat)
deriving DecidableEq

/-- Modelled from the spec: `FileStorage::persist` (src/storage.rs is
declared but absent from the sources) appends one self-contained
`(id, payload)` record per document to the log and flushes. -/
def persistLog (log : List (Nat × List Nat)) (recs : List (Nat × List Nat)) :
    List (Nat × List Nat) :=
  log ++ recs

/-- `RedDb::insert_one` at the system level: the in-memory insert followed
by `storage.persist(&[doc])`, which appends the document's record to the
log. -/
def insert_one_sys {T : Type} (ser : T → Option (List Nat)) (sys : SysState)
    (value : T) : RunResult (Document T) × SysState :=
  match insert_data ser sys.mem value with
  | (.ok doc, st1) =>
      match ser doc.data with
      | some b => (.ok doc, ⟨st1, persistLog sys.log [(doc.id, b)]⟩)
      | none => (.err .Datapersist, ⟨st1, sys.log⟩)
  | (.err _, st1) => (.panicked, ⟨st1, sys.log⟩)
  | (.panicked, st1) => (.panicked, ⟨st1, sys.log⟩)

/-- `RedDb::delete_one` at the system level: it only mutates the in-memory
map; nothing is ever appended to the log for a deletion. -/
def delete_one_sys (sys : SysState) (id : Nat) : RunResult Bool × SysState :=
  let r := delete_one sys.mem id
  (r.1, ⟨r.2, sys.log⟩)

/-- Restart: replay the log into a fresh index following `Store::new`
(last occurrence of an id wins, every document `Saved`). -/
def replay (log : List (Nat × List Nat)) :
    List (Nat × DStoreModel.DocV (List Nat)) :=
  DStoreModel.storeNew log

end Sys

namespace Examples

open RedDb Ron

/-- The value with foo = "one" of the repository's tests (string as bytes). -/
def exOne : TestStruct := ⟨[111, 110, 101]⟩

/-- The value with foo = "two" of the repository's tests. -/
def exTwo : TestStruct := ⟨[116, 119, 111]⟩

/-- RON encoding of exOne, the byte vector asserted by the repository's
serializer test. -/
def oneBytes : List Nat := [40, 102, 111, 111, 58, 34, 111, 110, 101, 34, 41, 10]

/-- RON encoding of exTwo. -/
def twoBytes : List Nat := [40, 102, 111, 111, 58, 34, 116, 119, 111, 34, 41, 10]

/-- An empty store whose id generator will yield 0, 1, 2. -/
def st0 : DbState := ⟨[], false, [0, 1, 2]⟩

/-- The store after inserting the three example values. -/
def st3 : DbState := (insert ronSerialize true st0 [exOne, exOne, exTwo]).2

/-- The store after the example update. -/
def st3u : DbState := (update ronSerialize true st3 exOne exTwo).2

/-- An empty store with an exhausted generator. -/
def stEmpty : DbState := ⟨[], false, []⟩

/-- A store whose outer RwLock is poisoned. -/
def stPoisoned : DbState := ⟨[], true, []⟩

/-- A store holding one document (id 9) with two fresh ids in the generator. -/
def stWit : DbState := ⟨[(9, ⟨[1], false⟩)], false, [1, 2]⟩

/-- A serializer that fails on every value. -/
def serNone : TestStruct → Option (List Nat) := fun _ => none

/-- An engine over an empty log whose generator yields id 7. -/
def sys0 : Sys.SysState := ⟨⟨[], false, [7]⟩, []⟩

/-- The engine after inserting exOne. -/
def sys1 : Sys.SysState := (Sys.insert_one_sys ronSerialize sys0 exOne).2

/-- The engine after deleting the document again. -/
def sys2 : Sys.SysState := (Sys.delete_one_sys sys1 7).2

end Examples

namespace RedDb

theorem beqComm (a b : Nat) : (a == b) = (b == a) := by
  by_cases h : a = b
  · simp [beq_iff_eq, h]
  · simp [beq_iff_eq, h]
    omega

theorem hmGet_nil {β : Type} (k : Nat) : hmGet ([] : List (Nat × β)) k = none := rfl

theorem hmGet_cons {β : Type} (p : Nat × β) (ps : List (Nat × β)) (k : Nat) :
    hmGet (p :: ps) k = if p.1 == k then some p.2 else hmGet ps k := by
  cases h : (p.1 == k) <;> simp [hmGet, List.find?_cons, h]

theorem hmContains_eq_isSome {β : Type} (m : List (Nat × β)) (k : Nat) :
    hmContains m k = (hmGet m k).isSome := by
  induction m with
  | nil => rfl
  | cons p ps ih =>
      cases h : (p.1 == k) <;>
        simp [hmContains, List.any_cons, h, hmGet_cons, ← ih, hmContains]

theorem hmGet_map_replace_ne {β : Type} (m : List (Nat × β)) (k i : Nat) (v : β)
    (hik : i ≠ k) :
    hmGet (m.map (fun p => if p.1 == k then (k, v) else p)) i = hmGet m i := by
  induction m with
  | nil => rfl
  | cons p ps ih =>
      cases hb : (p.1 == k) with
      | true =>
          have hp1 : p.1 = k := by simpa using hb
          have h1 : k ≠ i := fun h => hik h.symm
          have h2 : p.1 ≠ i := by omega
          simp [hmGet_cons, hp1, h1, h2]
          simpa using ih
      | false =>
          have hp1 : p.1 ≠ k := by simpa using hb
          simp [hmGet_cons, hp1]
          by_cases hpi : p.1 = i
          · simp [hpi]
          · simp [hpi]
            simpa using ih

theorem hmGet_map_replace_self {β : Type} (m : List (Nat × β)) (k : Nat) (v : β)
    (hc : hmContains m k = true) :
    hmGet (m.map (fun p => if p.1 == k then (k, v) else p)) k = some v := by
  induction m with
  | nil => simp [hmContains] at hc
  | cons p ps ih =>
      cases hb : (p.1 == k) with
      | true =>
          have hp1 : p.1 = k := by simpa using hb
          simp [hmGet_cons, hp1]
      | false =>
          have hp1 : p.1 ≠ k := by simpa using hb
          have hc' : hmContains ps k = true := by
            rw [hmContains, List.any_cons, hb, Bool.false_or] at hc
            exact hc
          simp [hmGet_cons, hp1]
          simpa using ih hc'

theorem hmGet_append_single {β : Type} (m : List (Nat × β)) (k i : Nat) (v : β)
    (hc : hmContains m k = false) :
    hmGet (m ++ [(k, v)]) i = if i == k then some v else hmGet m i := by
  induction m with
  | nil =>
      rw [List.nil_append, hmGet_cons]
      rw [show ((k, v).1 == i) = (i == k) from beqComm k i]
  | cons p ps ih =>
      rw [hmContains, List.any_cons] at hc
      obtain ⟨h1, h2⟩ := Bool.or_eq_false_iff.mp hc
      have hc' : hmContains ps k = false := h2
      have hk1 : p.1 ≠ k := by simpa using h1
      by_cases hpi : p.1 = i
      · have hik : i ≠ k := by omega
        simp [hmGet_cons, hpi, hik]
      · simp [hmGet_cons, hpi, ih hc']

theorem hmGet_insert {β : Type} (m : List (Nat × β)) (k i : Nat) (v : β) :
    hmGet (hmInsert m k v) i = if i == k then some v else hmGet m i := by
  unfold hmInsert
  cases hc : hmContains m k with
  | true =>
      rw [if_pos rfl]
      by_cases hik : i = k
      · subst hik
        rw [if_pos (show (i == i) = true by simp)]
        exact hmGet_map_replace_self m i v hc
      · rw [if_neg (by simp [beq_iff_eq, hik])]
        exact hmGet_map_replace_ne m k i v hik
  | false =>
      rw [if_neg (by simp)]
      exact hmGet_append_single m k i v hc

theorem mem_hmInsert {β : Type} (m : List (Nat × β)) (k : Nat) (v : β)
    (p : Nat × β) (hp : p ∈ hmInsert m k v) : p ∈ m ∨ p = (k, v) := by
  unfold hmInsert at hp
  split at hp
  · obtain ⟨q, hq, he⟩ := List.mem_map.mp hp
    by_cases hqk : q.1 = k
    · rw [if_pos (by simp [beq_iff_eq, hqk])] at he
      exact Or.inr he.symm
    · rw [if_neg (by simp [beq_iff_eq, hqk])] at he
      rw [← he]
      exact Or.inl hq
  · rcases List.mem_append.mp hp with h | h
    · exact Or.inl h
    · exact Or.inr (List.mem_singleton.mp h)

end RedDb

theorem find?_eq_head?_filterL {α : Type} (p : α → Bool) (l : List α) :
    l.find? p = (l.filter p).head? := by
  induction l with
  | nil => rfl
  | cons a l ih =>
      cases h : p a with
      | true => rw [List.find?_cons_of_pos _ h, List.filter_cons, if_pos h]; rfl
      | false => rw [List.find?_cons_of_neg _ (by simp [h]), List.filter_cons, if_neg (by simp [h]), ih]

namespace DStoreModel

open RedDb

theorem storeNew_go {V : Type} (lines : List (Nat × V)) :
    ∀ (m : List (Nat × DocV V)) (i : Nat),
      hmGet (lines.foldl (fun m l => hmInsert m l.1 ⟨l.2, Status.Saved⟩) m) i
        = ((lines.reverse.find? (fun l => l.1 == i)).map
            (fun l => (⟨l.2, Status.Saved⟩ : DocV V))).or (hmGet m i) := by
  induction lines with
  | nil => intro m i; simp
  | cons l ls ih =>
      intro m i
      rw [List.foldl_cons, ih, List.reverse_cons, List.find?_append]
      cases hf : (ls.reverse.find? fun l => l.1 == i) with
      | some l' => simp
      | none =>
          simp only [Option.none_or]
          rw [hmGet_insert]
          cases hb : (l.1 == i) with
          | true =>
              have h1 : l.1 = i := by simpa using hb
              simp [List.find?_cons, hb, h1]
          | false =>
              have h1 : l.1 ≠ i := by simpa using hb
              have h2 : i ≠ l.1 := fun h => h1 h.symm
              simp [List.find?_cons, hb, h2]

theorem storeNew_lookup {V : Type} (lines : List (Nat × V)) (i : Nat) :
    hmGet (storeNew lines) i
      = ((lines.filter (fun l => l.1 == i)).getLast?).map
          (fun l => (⟨l.2, Status.Saved⟩ : DocV V)) := by
  rw [storeNew, storeNew_go lines [] i]
  rw [find?_eq_head?_filterL, List.filter_reverse, List.head?_reverse]
  rw [hmGet_nil, Option.or_none]

theorem storeNew_all_saved {V : Type} (lines : List (Nat × V)) :
    ∀ p ∈ storeNew lines, p.2.status = Status.Saved := by
  have grow : ∀ (ls : List (Nat × V)) (m : List (Nat × DocV V)),
      (∀ p ∈ m, p.2.status = Status.Saved) →
      ∀ p ∈ ls.foldl (fun m l => hmInsert m l.1 ⟨l.2, Status.Saved⟩) m,
        p.2.status = Status.Saved := by
    intro ls
    induction ls with
    | nil => intro m h; exact h
    | cons l ls' ih =>
        intro m h
        rw [List.foldl_cons]
        apply ih
        intro p hp
        rcases mem_hmInsert _ _ _ _ hp with h1 | h1
        · exact h p h1
        · rw [h1]
  rw [storeNew]
  exact grow lines [] (by intro p hp; cases hp)
end DStoreModel

namespace DStoreModel

/-- Claim C4: startup replay decodes the log line by line in file order and
populates the index with every loaded document marked Saved; when the same
id occurs on multiple lines, the index holds the payload of the last
occurrence in file order (last-write-wins), because the map insert of a
later line overwrites the earlier entry. -/
theorem storeNew_replay_last_write_wins {V : Type} (lines : List (Nat × V)) (i : Nat) :
    RedDb.hmGet (storeNew lines) i
      = ((lines.filter (fun l => l.1 == i)).getLast?).map
          (fun l => (⟨l.2, Status.Saved⟩ : DocV V))
    ∧ ∀ p ∈ storeNew lines, p.2.status = Status.Saved :=
  ⟨storeNew_lookup lines i, storeNew_all_saved lines⟩

end DStoreModel

/-- Witness for C4 at a concrete three-line log in which id 1 occurs twice:
the lookup returns the payload of the later line and every entry is Saved. -/
theorem storeNew_replay_last_write_wins_witness :
    RedDb.hmGet (DStoreModel.storeNew [(1, [10]), (2, [20]), (1, [30])]) 1
      = some ⟨[30], DStoreModel.Status.Saved⟩
    ∧ ∀ p ∈ DStoreModel.storeNew [(1, [10]), (2, [20]), (1, [30])],
        p.2.status = DStoreModel.Status.Saved :=
  ⟨(DStoreModel.storeNew_replay_last_write_wins
      [(1, [10]), (2, [20]), (1, [30])] 1).1.trans (by decide),
   (DStoreModel.storeNew_replay_last_write_wins
      [(1, [10]), (2, [20]), (1, [30])] 1).2⟩


namespace RedDb

theorem collectDocs_of_eq {T : Type} (deser : List Nat → Option T) (q : List Nat)
    (v : T) (hv : deser q = some v) :
    ∀ l : List (Nat × MVal), (∀ p ∈ l, p.2.bytes = q) →
      collectDocs deser l = some (l.map (fun p => (⟨p.1, v⟩ : Document T))) := by
  intro l
  induction l with
  | nil => intro _; rfl
  | cons p ps ih =>
      intro h
      have hb : p.2.bytes = q := h p (List.mem_cons_self p ps)
      have hrest := ih (fun x hx => h x (List.mem_cons_of_mem p hx))
      simp [collectDocs, hb, hv, hrest]

/-- Claim C1: for every store state and search value, find returns exactly
the documents whose stored encoded payload is byte-for-byte equal to the
encoding of the search value — the result is the filter of the index on
payload equality with the encoded pattern, with no partial or field-level
matching. -/
theorem find_matches_exact_encoding {T : Type}
    (ser : T → Option (List Nat)) (deser : List Nat → Option T)
    (st : DbState) (search : T) (q : List Nat) (v : T)
    (hp : st.dataPoisoned = false)
    (hvp : ∀ p ∈ st.data, p.2.poisoned = false)
    (hq : ser search = some q)
    (hv : deser q = some v) :
    find ser deser st search
      = .ok ((st.data.filter (fun p => p.2.bytes == q)).map
          (fun p => (⟨p.1, v⟩ : Document T))) := by
  have hany : st.data.any (fun p => p.2.poisoned) = false := by
    rw [List.any_eq_false]
    intro x hx
    simp [hvp x hx]
  simp only [find, hp, hq, hany]
  rw [collectDocs_of_eq deser q v hv _ (by
    intro p hp'
    have := (List.mem_filter.mp hp').2
    simpa using this)]
  simp

/-- Claim C2: update returns the count of documents whose encoded payload
equals the encoded pattern and overwrites each such document's payload in
place with the encoding of the new value while its id stays unchanged;
zero matches returns count 0 and is not an error. -/
theorem update_overwrites_matches {T : Type}
    (ser : T → Option (List Nat)) (st : DbState) (search new_value : T)
    (q b : List Nat)
    (hp : st.dataPoisoned = false)
    (hvp : ∀ p ∈ st.data, p.2.poisoned = false)
    (hq : ser search = some q)
    (hb : ser new_value = some b) :
    update ser true st search new_value
      = (.ok (st.data.filter (fun p => p.2.bytes == q)).length,
         { st with data := st.data.map (fun p =>
             if p.2.bytes == q then (p.1, (⟨b, false⟩ : MVal)) else p) })
    ∧ ((st.data.filter (fun p => p.2.bytes == q)).length = 0 →
        update ser true st search new_value = (.ok 0, st)) := by
  obtain ⟨d, pz, sup⟩ := st
  simp only at hp
  subst hp
  have hany : d.any (fun p => p.2.poisoned) = false := by
    rw [List.any_eq_false]
    intro x hx
    simp [hvp x hx]
  constructor
  · simp [update, hq, hb, hany]
  · intro h0
    have hnil : d.filter (fun p => p.2.bytes == q) = [] :=
      List.length_eq_zero.mp h0
    have hnone : ∀ p ∈ d, ¬ p.2.bytes = q := by
      simpa using List.filter_eq_nil_iff.mp hnil
    have hmapid : d.map (fun p =>
        if p.2.bytes = q then (p.1, (⟨b, false⟩ : MVal)) else p) = d := by
      rw [List.map_congr_left (g := id) ?_, List.map_id]
      intro a ha
      simp [hnone a ha]
    simp [update, hq, hb, hany, h0, hmapid]

theorem insertLoop_spec {T : Type} (ser : T → Option (List Nat)) (values : List T) :
    ∀ st : DbState, st.dataPoisoned = false →
      (∀ v ∈ values, (ser v).isSome) →
      values.length ≤ st.supply.length →
      ∃ docs st2, insertLoop ser st values = (.ok docs, st2)
        ∧ docs.map Document.id = st.supply.take values.length := by
  induction values with
  | nil =>
      intro st hp hs hl
      exact ⟨[], st, rfl, by simp⟩
  | cons v vs ih =>
      intro st hp hs hl
      obtain ⟨d, pz, sup⟩ := st
      simp only at hp
      subst hp
      cases sup with
      | nil => simp at hl
      | cons a rest =>
          have hv : (ser v).isSome := hs v (List.mem_cons_self v vs)
          obtain ⟨bv, hbv⟩ := Option.isSome_iff_exists.mp hv
          have hlen : vs.length ≤ rest.length := by simp at hl; omega
          obtain ⟨docs, st2, hrun, hids⟩ :=
            ih ⟨hmInsert d a ⟨bv, false⟩, false, rest⟩ rfl
              (fun x hx => hs x (List.mem_cons_of_mem v hx)) hlen
          refine ⟨⟨a, v⟩ :: docs, st2, ?_, ?_⟩
          · simp [insertLoop, insert_data, hbv, hrun]
          · simp [hids, List.take_succ_cons]

/-- Claim C6 (amended): provided the UUID generator yields pairwise
distinct ids that do not collide with the ids already live in the index, a
sequence of inserts yields pairwise-distinct document ids, none of which
equals a live document's id.  (Unamended, the claim fails: the code does
no collision check, see the counterexample.) -/
theorem insert_ids_distinct_of_fresh_generator {T : Type}
    (ser : T → Option (List Nat)) (st : DbState) (values : List T)
    (hp : st.dataPoisoned = false)
    (hs : ∀ v ∈ values, (ser v).isSome)
    (hl : values.length ≤ st.supply.length)
    (hnd : st.supply.Nodup)
    (hfresh : ∀ k ∈ keys st.data, k ∉ st.supply) :
    ∃ docs st2,
      insert ser true st values = (.ok docs, st2)
      ∧ (docs.map Document.id).Nodup
      ∧ ∀ k ∈ keys st.data, k ∉ docs.map Document.id := by
  obtain ⟨docs, st2, hrun, hids⟩ := insertLoop_spec ser values st hp hs hl
  refine ⟨docs, st2, ?_, ?_, ?_⟩
  · simp [insert, hrun]
  · rw [hids]
    exact List.Nodup.sublist (List.take_sublist _ _) hnd
  · intro k hk hmem
    rw [hids] at hmem
    exact hfresh k hk (List.take_subset _ _ hmem)

/-- Claim C7 (amended): for an id not present in the index, find_one
yields the NotFound error (never a default or empty value), while
update_one and delete_one return success with the boolean false rather
than a NotFound error. -/
theorem missing_id_not_found {T : Type} (ser : T → Option (List Nat))
    (deser : List Nat → Option T) (persistOk : Bool) (st : DbState) (id : Nat)
    (v : T)
    (hp : st.dataPoisoned = false)
    (hmiss : hmGet st.data id = none) :
    find_one deser st id = .err (.NotFound id)
    ∧ update_one ser persistOk st id v = (.ok false, st)
    ∧ delete_one st id = (.ok false, st) := by
  have hc : hmContains st.data id = false := by
    rw [hmContains_eq_isSome, hmiss]
    rfl
  refine ⟨?_, ?_, ?_⟩
  · simp [find_one, hp, hmiss]
  · simp [update_one, hp, hc]
  · simp [delete_one, hp, hc]

/-- Claim C8: when the append/flush to the log fails during insert_one or
update, the call returns the Datapersist error while the in-memory
mutation has already been applied and remains in the index. -/
theorem persist_failure_leaves_memory_applied {T : Type}
    (ser : T → Option (List Nat)) (st : DbState)
    (value search new_value : T) (b q b2 : List Nat)
    (hp : st.dataPoisoned = false)
    (hb : ser value = some b)
    (hvp : ∀ p ∈ st.data, p.2.poisoned = false)
    (hq : ser search = some q)
    (hb2 : ser new_value = some b2) :
    insert_one ser false st value
      = (.err .Datapersist,
         ⟨hmInsert st.data (st.supply.headD 0) ⟨b, false⟩, false, st.supply.tail⟩)
    ∧ update ser false st search new_value
      = (.err .Datapersist,
         { st with data := st.data.map (fun p =>
             if p.2.bytes == q then (p.1, (⟨b2, false⟩ : MVal)) else p) }) := by
  have hany : st.data.any (fun p => p.2.poisoned) = false := by
    rw [List.any_eq_false]
    intro x hx
    simp [hvp x hx]
  obtain ⟨d, pz, sup⟩ := st
  simp only at hp
  subst hp
  constructor
  · simp [insert_one, insert_data, hb]
  · simp [update, hq, hb2, hany]

/-- Claim C10: when serializing the new value fails, update_one on a
present id returns the Serialization error and leaves the whole state —
the target document's payload included — exactly as it was. -/
theorem update_one_unchanged_on_serialize_failure {T : Type}
    (ser : T → Option (List Nat)) (persistOk : Bool) (st : DbState) (id : Nat)
    (new_value : T) (mv : MVal)
    (hp : st.dataPoisoned = false)
    (hget : hmGet st.data id = some mv)
    (hmv : mv.poisoned = false)
    (hser : ser new_value = none) :
    update_one ser persistOk st id new_value = (.err .Serialization, st) := by
  have hc : hmContains st.data id = true := by
    rw [hmContains_eq_isSome, hget]
    rfl
  simp [update_one, hp, hc, hget, hmv, hser]

end RedDb

namespace Ron

theorem ronUnescape_ronEscape (s : List Nat) :
    ∀ r : List Nat, ronUnescape (ronEscape s ++ 34 :: r) = some (s, r) := by
  induction s with
  | nil =>
      intro r
      rw [ronEscape, List.nil_append, ronUnescape.eq_def]
      simp
  | cons c cs ih =>
      intro r
      by_cases h : (c == 34 || c == 92) = true
      · rw [ronEscape, if_pos h, List.cons_append, List.cons_append,
          ronUnescape.eq_def]
        simp [ih r]
      · rw [ronEscape, if_neg h, List.cons_append, ronUnescape.eq_def]
        obtain ⟨h34, h92⟩ := Bool.or_eq_false_iff.mp (Bool.not_eq_true _ |>.mp h)
        simp [h92, h34, ih r]

/-- Claim C5: for every representable value, deserializing its
serialization yields the value back, and serialization is deterministic:
equal values encode to identical bytes. -/
theorem ron_round_trip :
    (∀ (v : TestStruct) (b : List Nat),
        ronSerialize v = some b → ronDeserialize b = some v)
    ∧ (∀ v w : TestStruct, v = w → ronSerialize v = ronSerialize w) := by
  constructor
  · intro v b hb
    obtain ⟨foo⟩ := v
    rw [ronSerialize] at hb
    have hb' : b = 40 :: 102 :: 111 :: 111 :: 58 :: 34 ::
        (ronEscape foo ++ 34 :: [41, 10]) := by
      simp only [Option.some.injEq] at hb
      rw [← hb]
      simp
    subst hb'
    rw [ronDeserialize]
    rw [ronUnescape_ronEscape foo [41, 10]]
  · intro v w h
    rw [h]

end Ron

/-- Claim C3 (code bug evidence): a successful insert followed by a
successful delete leaves the insert record in the log and no delete
marker, so replaying the log after a restart resurrects the deleted
document (status Saved) — the durability claim fails for deletions. -/
theorem deleted_document_resurrects_on_replay :
    (Sys.insert_one_sys Ron.ronSerialize Examples.sys0 Examples.exOne).1
        = .ok ⟨7, Examples.exOne⟩
    ∧ (Sys.delete_one_sys Examples.sys1 7).1 = .ok true
    ∧ Examples.sys2.mem.data = []
    ∧ RedDb.hmGet (Sys.replay Examples.sys2.log) 7
        = some ⟨Examples.oneBytes, DStoreModel.Status.Saved⟩ := by decide

/-- Claim C9 (code bug evidence): delete_one unwraps the outer lock
acquisition and therefore panics on a poisoned lock instead of returning
the Poisoned error kind that the read/write helpers (used by find_one and
the other operations) produce. -/
theorem delete_one_panics_on_poisoned_lock :
    RedDb.delete_one Examples.stPoisoned 0 = (.panicked, Examples.stPoisoned)
    ∧ RedDb.find_one Ron.ronDeserialize Examples.stPoisoned 0 = .err .Poisoned
    ∧ (RedDb.delete_one Examples.stPoisoned 0).1 ≠ .err .Poisoned := by decide

/-- Counterexample to C6 as stated: when the id generator returns the
same id twice, two inserts report two documents carrying the same id and
the second insert silently overwrites the first — the index ends with a
single entry. -/
theorem insert_duplicate_id_counterexample :
    (RedDb.insert Ron.ronSerialize true ⟨[], false, [5, 5]⟩
        [Examples.exOne, Examples.exOne]).1
      = .ok [⟨5, Examples.exOne⟩, ⟨5, Examples.exOne⟩]
    ∧ ¬ List.Nodup [5, 5]
    ∧ ((RedDb.insert Ron.ronSerialize true ⟨[], false, [5, 5]⟩
        [Examples.exOne, Examples.exOne]).2).data.length = 1 := by decide

/-- Counterexample to C7 as stated: on an empty store, update_one and
delete_one of a missing id return success with false, not the NotFound
error the claim asserts. -/
theorem missing_id_counterexample :
    RedDb.update_one Ron.ronSerialize true Examples.stEmpty 0 Examples.exTwo
        = (.ok false, Examples.stEmpty)
    ∧ RedDb.delete_one Examples.stEmpty 0 = (.ok false, Examples.stEmpty)
    ∧ (RedDb.delete_one Examples.stEmpty 0).1 ≠ .err (.NotFound 0)
    ∧ (RedDb.update_one Ron.ronSerialize true Examples.stEmpty 0 Examples.exTwo).1
        ≠ .err (.NotFound 0) := by decide

/-- Witness for C1: after inserting the three example values, find of the
pattern returns exactly the two matching documents. -/
theorem find_matches_exact_encoding_witness :
    (Examples.st3.dataPoisoned = false
      ∧ (∀ p ∈ Examples.st3.data, p.2.poisoned = false)
      ∧ Ron.ronSerialize Examples.exOne = some Examples.oneBytes
      ∧ Ron.ronDeserialize Examples.oneBytes = some Examples.exOne)
    ∧ RedDb.find Ron.ronSerialize Ron.ronDeserialize Examples.st3 Examples.exOne
        = .ok [⟨0, Examples.exOne⟩, ⟨1, Examples.exOne⟩] :=
  ⟨⟨by decide, by decide, by decide, by decide⟩,
   (RedDb.find_matches_exact_encoding Ron.ronSerialize Ron.ronDeserialize
      Examples.st3 Examples.exOne Examples.oneBytes Examples.exOne
      (by decide) (by decide) (by decide) (by decide)).trans (by decide)⟩

/-- Witness for C2: on the example data, update returns 2 and the
subsequent find of the new value returns 3 documents. -/
theorem update_overwrites_matches_witness :
    (Examples.st3.dataPoisoned = false
      ∧ (∀ p ∈ Examples.st3.data, p.2.poisoned = false)
      ∧ Ron.ronSerialize Examples.exOne = some Examples.oneBytes
      ∧ Ron.ronSerialize Examples.exTwo = some Examples.twoBytes)
    ∧ RedDb.update Ron.ronSerialize true Examples.st3 Examples.exOne Examples.exTwo
        = (.ok 2, Examples.st3u)
    ∧ RedDb.find Ron.ronSerialize Ron.ronDeserialize Examples.st3u Examples.exTwo
        = .ok [⟨0, Examples.exTwo⟩, ⟨1, Examples.exTwo⟩, ⟨2, Examples.exTwo⟩] :=
  ⟨⟨by decide, by decide, by decide, by decide⟩,
   ((RedDb.update_overwrites_matches Ron.ronSerialize Examples.st3 Examples.exOne
       Examples.exTwo Examples.oneBytes Examples.twoBytes
       (by decide) (by decide) (by decide) (by decide)).1).trans (by decide),
   by decide⟩

/-- Witness for C5 at the repository's own serializer test vector. -/
theorem ron_round_trip_witness :
    Ron.ronSerialize Examples.exOne = some Examples.oneBytes
    ∧ Ron.ronDeserialize Examples.oneBytes = some Examples.exOne :=
  ⟨by decide, Ron.ron_round_trip.1 Examples.exOne Examples.oneBytes (by decide)⟩

/-- Witness for C6 (amended) at a store with one live document and a
fresh two-id generator stream. -/
theorem insert_ids_distinct_witness :
    ((Examples.stWit.dataPoisoned = false)
      ∧ (∀ v ∈ [Examples.exOne, Examples.exTwo], (Ron.ronSerialize v).isSome)
      ∧ ([Examples.exOne, Examples.exTwo].length ≤ Examples.stWit.supply.length)
      ∧ Examples.stWit.supply.Nodup
      ∧ (∀ k ∈ RedDb.keys Examples.stWit.data, k ∉ Examples.stWit.supply))
    ∧ ∃ docs st2,
        RedDb.insert Ron.ronSerialize true Examples.stWit
            [Examples.exOne, Examples.exTwo]
          = (.ok docs, st2)
        ∧ (docs.map RedDb.Document.id).Nodup
        ∧ ∀ k ∈ RedDb.keys Examples.stWit.data, k ∉ docs.map RedDb.Document.id :=
  ⟨⟨by decide, by decide, by decide, by decide, by decide⟩,
   RedDb.insert_ids_distinct_of_fresh_generator Ron.ronSerialize Examples.stWit
     [Examples.exOne, Examples.exTwo]
     (by decide) (by decide) (by decide) (by decide) (by decide)⟩

/-- Witness for C7 (amended) at the example store and the absent id 7. -/
theorem missing_id_not_found_witness :
    (Examples.st3.dataPoisoned = false
      ∧ RedDb.hmGet Examples.st3.data 7 = none)
    ∧ (RedDb.find_one Ron.ronDeserialize Examples.st3 7 = .err (.NotFound 7)
      ∧ RedDb.update_one Ron.ronSerialize true Examples.st3 7 Examples.exTwo
          = (.ok false, Examples.st3)
      ∧ RedDb.delete_one Examples.st3 7 = (.ok false, Examples.st3)) :=
  ⟨⟨by decide, by decide⟩,
   RedDb.missing_id_not_found Ron.ronSerialize Ron.ronDeserialize true
     Examples.st3 7 Examples.exTwo (by decide) (by decide)⟩

/-- Witness for C8 at a concrete store with a failing persist step. -/
theorem persist_failure_witness :
    (Examples.stWit.dataPoisoned = false
      ∧ Ron.ronSerialize Examples.exOne = some Examples.oneBytes
      ∧ (∀ p ∈ Examples.stWit.data, p.2.poisoned = false)
      ∧ Ron.ronSerialize Examples.exTwo = some Examples.twoBytes)
    ∧ (RedDb.insert_one Ron.ronSerialize false Examples.stWit Examples.exOne
        = (.err .Datapersist,
           ⟨RedDb.hmInsert Examples.stWit.data (Examples.stWit.supply.headD 0)
              ⟨Examples.oneBytes, false⟩, false, Examples.stWit.supply.tail⟩)
      ∧ RedDb.update Ron.ronSerialize false Examples.stWit Examples.exOne Examples.exTwo
        = (.err .Datapersist,
           { Examples.stWit with data := Examples.stWit.data.map (fun p =>
               if p.2.bytes == Examples.oneBytes
               then (p.1, (⟨Examples.twoBytes, false⟩ : RedDb.MVal)) else p) })) :=
  ⟨⟨by decide, by decide, by decide, by decide⟩,
   RedDb.persist_failure_leaves_memory_applied Ron.ronSerialize Examples.stWit
     Examples.exOne Examples.exOne Examples.exTwo
     Examples.oneBytes Examples.oneBytes Examples.twoBytes
     (by decide) (by decide) (by decide) (by decide) (by decide)⟩

/-- Witness for C10 with a serializer that rejects every value. -/
theorem update_one_serialize_failure_witness :
    (Examples.stWit.dataPoisoned = false
      ∧ RedDb.hmGet Examples.stWit.data 9 = some ⟨[1], false⟩
      ∧ (⟨[1], false⟩ : RedDb.MVal).poisoned = false
      ∧ Examples.serNone Examples.exTwo = none)
    ∧ RedDb.update_one Examples.serNone true Examples.stWit 9 Examples.exTwo
        = (.err .Serialization, Examples.stWit) :=
  ⟨⟨by decide, by decide, by decide, rfl⟩,
   RedDb.update_one_unchanged_on_serialize_failure Examples.serNone true
     Examples.stWit 9 Examples.exTwo ⟨[1], false⟩
     (by decide) (by decide) (by decide) rfl⟩
